import Mathlib

/-!
# FluidSim: the scene and the control loop of `main`

A shallow embedding of `src/main.cpp`: the scene that `main` configures on the
simulator (parameter set, particles, boundary planes) and the render loop that
decides when `simulator.update` and `simulator.reset` are called.

Modelling conventions.

* A `float` is a rational number, and a literal stands for the decimal value
  written in the source (`.7f` is `7/10`).  The frame pacing of lines 212-216
  is computed as the program computes it, in IEEE 754 single precision: the
  quotient `1000.0f / 60.0f` and the difference `desiredFrametime - elapsed`
  are rounded to the nearest binary32 value (`roundF32`).  The accumulation
  of line 146 and the scaling of line 181 are the exact operations.
* `vec2` and `vec3` are records of two and three such numbers.
* The render loop is a step function on the variables `runSim`, `elapsed`,
  `elapsedSum`; what it reads from the outside (the key table and the timer)
  is the input of an iteration, and the calls it issues are its output.
-/

namespace FluidSim

/-! ## Vectors (`glm::vec2`, `glm::vec3`) -/

/-- Two-component vector, `glm::vec2`. -/
structure Vec2 where
  x : ℚ
  y : ℚ
  deriving DecidableEq

/-- Three-component vector, `glm::vec3`. -/
structure Vec3 where
  x : ℚ
  y : ℚ
  z : ℚ
  deriving DecidableEq

namespace Vec3

/-- Component-wise difference `a - b`. -/
def sub (a b : Vec3) : Vec3 := ⟨a.x - b.x, a.y - b.y, a.z - b.z⟩

/-- Dot product, `glm::dot`. -/
def dot (a b : Vec3) : ℚ := a.x * b.x + a.y * b.y + a.z * b.z

/-- Cross product, `glm::cross`. -/
def cross (a b : Vec3) : Vec3 :=
  ⟨a.y * b.z - a.z * b.y, a.z * b.x - a.x * b.z, a.x * b.y - a.y * b.x⟩

end Vec3

/-! ## The records handed to the simulator -/

/-- The fields of `SimulationParams` that `main` assigns (lines 45-53). -/
structure SimulationParams where
  particleRadius : ℚ
  smoothingRadius : ℚ
  smoothingRadius2 : ℚ
  restDensity : ℚ
  gravityMult : ℚ
  particleMass : ℚ
  particleViscosity : ℚ
  particleDrag : ℚ
  deriving DecidableEq

/-- Modelled from the spec: the `Plane` record, whose declaration (`Plane.h`) is
not among the sources.  The constructor arguments of `main` are, in order, a
point on the plane, the two in-plane directions and the half-extents along
them. -/
structure Plane where
  point : Vec3
  dirU : Vec3
  dirV : Vec3
  size : Vec2
  deriving DecidableEq

namespace Plane

/-- Modelled from the spec: the finite rectangular patch of a plane.  A point
`q` lies on the patch when `q - point` has no component along `dirU × dirV`
and its components along `dirU` and `dirV` are within the half-extents. -/
def onPatch (p : Plane) (q : Vec3) : Prop :=
  Vec3.dot (Vec3.sub q p.point) (Vec3.cross p.dirU p.dirV) = 0 ∧
  |Vec3.dot (Vec3.sub q p.point) p.dirU| ≤ p.size.x ∧
  |Vec3.dot (Vec3.sub q p.point) p.dirV| ≤ p.size.y

instance (p : Plane) (q : Vec3) : Decidable (p.onPatch q) := by
  unfold onPatch; infer_instance

end Plane

/-- Modelled from the spec: the bookkeeping of the `Simulator` facade
(`Simulator.h` is not among the sources): the worker count and spawn origin
given at construction, the registered parameter sets, the parameter handle of
every spawned particle, and the boundary planes in the order they were
added. -/
structure Simulator where
  threadCount : Nat
  spawnOrigin : Vec3
  params : List SimulationParams
  particles : List Nat
  planes : List Plane
  deriving DecidableEq

namespace Simulator

/-- Modelled from the spec: `Simulator(workerCount, spawnOrigin)`. -/
def new (threadCount : Nat) (spawnOrigin : Vec3) : Simulator :=
  ⟨threadCount, spawnOrigin, [], [], []⟩

/-- Modelled from the spec: `addParams` stores a copy of the parameter set and
returns its handle, the index of the new entry. -/
def addParams (s : Simulator) (p : SimulationParams) : Simulator × Nat :=
  (⟨s.threadCount, s.spawnOrigin, s.params ++ [p], s.particles, s.planes⟩, s.params.length)

/-- Modelled from the spec: `addParticles(count, handle)` appends `count`
particles bound to `handle`. -/
def addParticles (s : Simulator) (count : Nat) (handle : Nat) : Simulator :=
  ⟨s.threadCount, s.spawnOrigin, s.params, s.particles ++ List.replicate count handle, s.planes⟩

/-- Modelled from the spec: `addPlane` appends the plane to the boundary set. -/
def addPlane (s : Simulator) (p : Plane) : Simulator :=
  ⟨s.threadCount, s.spawnOrigin, s.params, s.particles, s.planes ++ [p]⟩

end Simulator

/-! ## The scene configured by `main` (lines 22, 45-67) -/

/-- `#define PARTICLE_COUNT 5000`. -/
def PARTICLE_COUNT : Nat := 5000

/-- The parameter set built on lines 45-53. -/
def simulationParams : SimulationParams where
  particleRadius := 0.7
  smoothingRadius := 1
  smoothingRadius2 := 1
  restDensity := 15
  gravityMult := 2000
  particleMass := 0.1
  particleViscosity := 1
  particleDrag := 0.025

/-- The plane of lines 58-59. -/
def plane0 : Plane := ⟨⟨0, 0, 0⟩, ⟨1, 0, 0⟩, ⟨0, 0, 1⟩, ⟨20, 20⟩⟩

/-- The plane of lines 60-61. -/
def plane1 : Plane := ⟨⟨-20, 7.5, 0⟩, ⟨0, 0, 1⟩, ⟨0, 1, 0⟩, ⟨20, 7.5⟩⟩

/-- The plane of lines 62-63. -/
def plane2 : Plane := ⟨⟨20, 7.5, 0⟩, ⟨0, 0, -1⟩, ⟨0, 1, 0⟩, ⟨20, 7.5⟩⟩

/-- The plane of lines 64-65. -/
def plane3 : Plane := ⟨⟨0, 7.5, -20⟩, ⟨-1, 0, 0⟩, ⟨0, 1, 0⟩, ⟨20, 7.5⟩⟩

/-- The plane of lines 66-67. -/
def plane4 : Plane := ⟨⟨0, 7.5, 20⟩, ⟨1, 0, 0⟩, ⟨0, 1, 0⟩, ⟨20, 7.5⟩⟩

/-- The simulator after line 56, with the handle `pid` that `addParams`
returned. -/
def registered : Simulator × Nat :=
  (Simulator.new 16 ⟨-6, 0, 0⟩).addParams simulationParams

/-- The handle `pid` of line 56. -/
def pid : Nat := registered.2

/-- The simulator as `main` has configured it after line 67. -/
def scene : Simulator :=
  ((((((registered.1).addParticles PARTICLE_COUNT pid).addPlane plane0).addPlane plane1).addPlane
    plane2).addPlane plane3).addPlane plane4

/-- The centre of the container, the point the claims measure "inward"
against. -/
def containerCentre : Vec3 := ⟨0, 7.5, 0⟩

/-! ## The render loop of `main` (lines 142-220) -/

/-- The entries of `window.keys` that the loop reads (lines 180-206). -/
structure Keys where
  leftShift : Bool
  q : Bool
  escape : Bool
  w : Bool
  s : Bool
  a : Bool
  d : Bool
  space : Bool
  leftControl : Bool
  up : Bool
  down : Bool
  left : Bool
  right : Bool
  r : Bool
  backspace : Bool
  deriving DecidableEq

/-- The directions handed to `camera.ProcessKeyboard`. -/
inductive CameraMovement where
  | FORWARD
  | BACKWARD
  | LEFT
  | RIGHT
  | UP
  | DOWN
  deriving DecidableEq

/-- The calls one loop iteration can issue on its collaborators; drawing is
left out, it reads the simulator and writes none of the loop variables. -/
inductive Call where
  | update (dt : ℚ)
  | windowClose
  | processKeyboard (dir : CameraMovement) (dt : ℚ)
  | processMouseMovement (dx dy : ℚ)
  | reset
  | sleepFor (ms : Int)
  deriving DecidableEq

/-- What one iteration reads from outside: the key table, the reading of
`timer.elapsed()` on line 213 and the reading on line 217 (taken only when the
first one differs from `desiredFrametime`). -/
structure Frame where
  keys : Keys
  timer1 : ℚ
  timer2 : ℚ
  deriving DecidableEq

/-- The loop variables `runSim` (line 41), `elapsed` and `elapsedSum`
(line 143). -/
structure LoopState where
  runSim : Bool
  elapsed : ℚ
  elapsedSum : ℚ
  deriving DecidableEq

/-- The values the loop variables have when the loop is entered. -/
def initialState : LoopState := ⟨false, 0.1, 0⟩

/-! ### Single precision (IEEE 754 binary32) -/

/-- The nearest whole number, a tie going to the even one. -/
def roundHalfEven (t : ℚ) : Int :=
  if t - ⌊t⌋ < 1 / 2 then ⌊t⌋
  else if 1 / 2 < t - ⌊t⌋ then ⌊t⌋ + 1
  else if ⌊t⌋ % 2 = 0 then ⌊t⌋ else ⌊t⌋ + 1

/-- The binary exponent of `x` as a binary32 value: `2 ^ e ≤ |x| < 2 ^ (e + 1)`,
and the least normal exponent `-126` for the smaller values. -/
def f32Exponent (x : ℚ) : Int := max (Int.log 2 |x|) (-126)

/-- The spacing of the binary32 values around `x`: a significand has 24
bits. -/
def f32Quantum (x : ℚ) : ℚ := 2 ^ (f32Exponent x - 23)

/-- The result of a single-precision operation whose exact result is `x`: the
nearest binary32 value, a tie going to the even significand.  Overflow to
infinity (`|x| ≥ 2 ^ 128`) is not modelled. -/
def roundF32 (x : ℚ) : ℚ := roundHalfEven (x / f32Quantum x) * f32Quantum x

/-- `constexpr float desiredFrametime = 1000.0f / 60.0f` (line 212): the
single-precision quotient of two values that binary32 represents exactly. -/
def desiredFrametime : ℚ := roundF32 (1000 / 60)

/-- The conversion `int(x)` of line 216: the fractional part is discarded
(truncation toward zero).  The range of `int` is not modelled; the value fits
it for every `x` of magnitude below `2^31`. -/
def toInt (x : ℚ) : Int := if 0 ≤ x then ⌊x⌋ else ⌈x⌉

/-- The argument of `sleep_for` for a first timer reading `elapsed`, in
milliseconds, or `none` when the guard of line 214 skips the sleep: the
single-precision difference `desiredFrametime - elapsed`, converted to
`int`. -/
def sleepRequest (elapsed : ℚ) : Option Int :=
  if elapsed ≠ desiredFrametime then
    some (toInt (roundF32 (desiredFrametime - elapsed)))
  else none

/-- The delay an iteration asks for: the argument of `sleep_for`, and zero
when `sleep_for` is not called. -/
def requestedDelay (elapsed : ℚ) : Int := (sleepRequest elapsed).getD 0

/-- A call issued when a key is down (`if (keys[K]) call;`). -/
def onKey (key : Bool) (c : Call) : List Call := if key then [c] else []

/-- The camera calls of lines 184-203, with the value `elapsed` has there. -/
def cameraCalls (k : Keys) (elapsed : ℚ) : List Call :=
  onKey k.w (.processKeyboard .FORWARD elapsed) ++
  onKey k.s (.processKeyboard .BACKWARD elapsed) ++
  onKey k.a (.processKeyboard .LEFT elapsed) ++
  onKey k.d (.processKeyboard .RIGHT elapsed) ++
  onKey k.space (.processKeyboard .UP elapsed) ++
  onKey k.leftControl (.processKeyboard .DOWN elapsed) ++
  onKey k.up (.processMouseMovement 0 3) ++
  onKey k.down (.processMouseMovement 0 (-3)) ++
  onKey k.left (.processMouseMovement (-3) 0) ++
  onKey k.right (.processMouseMovement 3 0)

/-- The timer readings an iteration takes on lines 213-217: the second one is
taken only when the first differs from `desiredFrametime`. -/
def timerReadings (f : Frame) : List ℚ :=
  if f.timer1 ≠ desiredFrametime then [f.timer1, f.timer2] else [f.timer1]

/-- The value `elapsed` has after lines 213-218: the last timer reading
taken. -/
def lastReading (f : Frame) : ℚ :=
  if f.timer1 ≠ desiredFrametime then f.timer2 else f.timer1

/-- One iteration of the `while` loop (lines 146-219): the loop variables
after it and the calls it issued, in order. -/
def iteration (st : LoopState) (f : Frame) : LoopState × List Call :=
  -- line 146
  let sum1 := st.elapsedSum + st.elapsed
  -- lines 147-148
  let cUpdate := if st.runSim then [Call.update st.elapsed] else []
  -- lines 180-181
  let scaled := if f.keys.leftShift then st.elapsed * 5 else st.elapsed
  -- lines 182-183
  let cClose := onKey (f.keys.q || f.keys.escape) Call.windowClose
  -- lines 184-203
  let cCamera := cameraCalls f.keys scaled
  -- lines 204-205
  let fireR := f.keys.r && decide (sum1 > 200)
  let runSim1 := if fireR then !st.runSim else st.runSim
  let sum2 := if fireR then 0 else sum1
  -- lines 206-207
  let fireB := f.keys.backspace && decide (sum2 > 200)
  let cReset := if fireB then [Call.reset] else []
  let sum3 := if fireB then 0 else sum2
  -- lines 212-218
  let cSleep := match sleepRequest f.timer1 with
    | some ms => [Call.sleepFor ms]
    | none => []
  let elapsed1 := lastReading f
  (⟨runSim1, elapsed1, sum3⟩, cUpdate ++ cClose ++ cCamera ++ cReset ++ cSleep)

/-- The loop variables after running the loop body on the given frames, one
frame for every iteration that `window.shouldClose()` let through. -/
def stateAfter (st : LoopState) (fs : List Frame) : LoopState :=
  fs.foldl (fun s f => (iteration s f).1) st

/-- The calls issued while running the loop body on the given frames. -/
def callsOver : LoopState → List Frame → List Call
  | _, [] => []
  | st, f :: fs => (iteration st f).2 ++ callsOver (iteration st f).1 fs

/-- The value of `elapsed` at the start of each iteration over the frames. -/
def frameTimes : LoopState → List Frame → List ℚ
  | _, [] => []
  | st, f :: fs => st.elapsed :: frameTimes (iteration st f).1 fs

/-- The value of `runSim` at the start of each iteration over the frames. -/
def runHistory : LoopState → List Frame → List Bool
  | _, [] => []
  | st, f :: fs => st.runSim :: runHistory (iteration st f).1 fs

/-- The arguments of the `simulator.update` calls in a list of calls. -/
def updatesOf (cs : List Call) : List ℚ :=
  cs.filterMap fun c => match c with
    | .update dt => some dt
    | _ => none

/-- The arguments of the `sleep_for` calls in a list of calls. -/
def sleepsOf (cs : List Call) : List Int :=
  cs.filterMap fun c => match c with
    | .sleepFor ms => some ms
    | _ => none

/-- The iteration flips `runSim` (the R control fires). -/
def toggles (st : LoopState) (f : Frame) : Bool :=
  decide ((iteration st f).1.runSim ≠ st.runSim)

/-- A key table with no key down. -/
def noKeys : Keys :=
  ⟨false, false, false, false, false, false, false, false, false, false, false, false, false,
    false, false⟩

/-- A key table with only R down. -/
def rKeys : Keys := { noKeys with r := true }

/-- A key table with LEFT_SHIFT and W down. -/
def shiftKeys : Keys := { noKeys with leftShift := true, w := true }

/-- The frame with the LEFT_SHIFT entry of its key table replaced. -/
def withShift (f : Frame) (b : Bool) : Frame :=
  { f with keys := { f.keys with leftShift := b } }

/-! ## The scene: helper lemmas -/

theorem scene_planes : scene.planes = [plane0, plane1, plane2, plane3, plane4] := rfl

theorem scene_params : scene.params = [simulationParams] := rfl

theorem scene_particles : scene.particles = List.replicate PARTICLE_COUNT pid := rfl

theorem mem_scene_planes (p : Plane) :
    p ∈ scene.planes ↔ p = plane0 ∨ p = plane1 ∨ p = plane2 ∨ p = plane3 ∨ p = plane4 := by
  rw [scene_planes]
  simp only [List.mem_cons, List.mem_singleton, List.not_mem_nil, or_false]

theorem plane0_onPatch_iff (q : Vec3) :
    plane0.onPatch q ↔ q.y = 0 ∧ (-20 ≤ q.x ∧ q.x ≤ 20) ∧ (-20 ≤ q.z ∧ q.z ≤ 20) := by
  simp only [Plane.onPatch, plane0, Vec3.dot, Vec3.sub, Vec3.cross, abs_le]
  constructor
  · rintro ⟨h1, h2, h3⟩
    refine ⟨by linarith, ⟨by linarith, by linarith⟩, ⟨by linarith, by linarith⟩⟩
  · rintro ⟨h1, h2, h3⟩
    refine ⟨by rw [h1]; ring, ⟨by linarith, by linarith⟩, ⟨by linarith, by linarith⟩⟩

theorem plane1_onPatch_iff (q : Vec3) :
    plane1.onPatch q ↔ q.x = -20 ∧ (0 ≤ q.y ∧ q.y ≤ 15) ∧ (-20 ≤ q.z ∧ q.z ≤ 20) := by
  simp only [Plane.onPatch, plane1, Vec3.dot, Vec3.sub, Vec3.cross, abs_le]
  constructor
  · rintro ⟨h1, h2, h3⟩
    norm_num at h1 h2 h3
    refine ⟨by linarith, ⟨by linarith, by linarith⟩, ⟨by linarith, by linarith⟩⟩
  · rintro ⟨h1, h2, h3⟩
    refine ⟨by rw [h1]; ring, ⟨?_, ?_⟩, ⟨?_, ?_⟩⟩ <;> norm_num <;> linarith

theorem plane2_onPatch_iff (q : Vec3) :
    plane2.onPatch q ↔ q.x = 20 ∧ (0 ≤ q.y ∧ q.y ≤ 15) ∧ (-20 ≤ q.z ∧ q.z ≤ 20) := by
  simp only [Plane.onPatch, plane2, Vec3.dot, Vec3.sub, Vec3.cross, abs_le]
  constructor
  · rintro ⟨h1, h2, h3⟩
    norm_num at h1 h2 h3
    refine ⟨by linarith, ⟨by linarith, by linarith⟩, ⟨by linarith, by linarith⟩⟩
  · rintro ⟨h1, h2, h3⟩
    refine ⟨by rw [h1]; ring, ⟨?_, ?_⟩, ⟨?_, ?_⟩⟩ <;> norm_num <;> linarith

theorem plane3_onPatch_iff (q : Vec3) :
    plane3.onPatch q ↔ q.z = -20 ∧ (0 ≤ q.y ∧ q.y ≤ 15) ∧ (-20 ≤ q.x ∧ q.x ≤ 20) := by
  simp only [Plane.onPatch, plane3, Vec3.dot, Vec3.sub, Vec3.cross, abs_le]
  constructor
  · rintro ⟨h1, h2, h3⟩
    norm_num at h1 h2 h3
    refine ⟨by linarith, ⟨by linarith, by linarith⟩, ⟨by linarith, by linarith⟩⟩
  · rintro ⟨h1, h2, h3⟩
    refine ⟨by rw [h1]; ring, ⟨?_, ?_⟩, ⟨?_, ?_⟩⟩ <;> norm_num <;> linarith

theorem plane4_onPatch_iff (q : Vec3) :
    plane4.onPatch q ↔ q.z = 20 ∧ (0 ≤ q.y ∧ q.y ≤ 15) ∧ (-20 ≤ q.x ∧ q.x ≤ 20) := by
  simp only [Plane.onPatch, plane4, Vec3.dot, Vec3.sub, Vec3.cross, abs_le]
  constructor
  · rintro ⟨h1, h2, h3⟩
    norm_num at h1 h2 h3
    refine ⟨by linarith, ⟨by linarith, by linarith⟩, ⟨by linarith, by linarith⟩⟩
  · rintro ⟨h1, h2, h3⟩
    refine ⟨by rw [h1]; ring, ⟨?_, ?_⟩, ⟨?_, ?_⟩⟩ <;> norm_num <;> linarith

/-! ## The scene: the claims -/

/-- C1: the scene that `main` configures is the concrete scenario: exactly one
parameter set is registered, with particleRadius 0.7, smoothingRadius 1.0,
restDensity 15.0, gravity multiplier 2000, particleMass 0.1, particleViscosity
1.0 and particleDrag 0.025, and exactly 5000 particles are spawned, every one
with the handle that registering this parameter set returned. -/
theorem scene_concrete_scenario :
    scene.params = [simulationParams] ∧
    scene.params.get? pid = some simulationParams ∧
    simulationParams.particleRadius = 7 / 10 ∧
    simulationParams.smoothingRadius = 1 ∧
    simulationParams.restDensity = 15 ∧
    simulationParams.gravityMult = 2000 ∧
    simulationParams.particleMass = 1 / 10 ∧
    simulationParams.particleViscosity = 1 ∧
    simulationParams.particleDrag = 25 / 1000 ∧
    scene.particles.length = 5000 ∧
    ∀ h ∈ scene.particles, h = pid := by
  refine ⟨rfl, rfl, ?_, rfl, rfl, rfl, ?_, rfl, ?_, ?_, ?_⟩
  · norm_num [simulationParams]
  · norm_num [simulationParams]
  · norm_num [simulationParams]
  · rw [scene_particles, List.length_replicate]; rfl
  · intro h hh
    rw [scene_particles] at hh
    exact List.eq_of_mem_replicate hh

/-- C2, counterexample: the corners `(-20, 0, -20)` and `(20, 0, 20)` both lie
on the patch of the ground plane and are 40 units apart along each in-plane
direction, so the patch does not span 20 by 20 in total. -/
theorem ground_plane_wider_than_20 :
    plane0.onPatch ⟨-20, 0, -20⟩ ∧ plane0.onPatch ⟨20, 0, 20⟩ ∧
    ¬ (∀ q q2 : Vec3, plane0.onPatch q → plane0.onPatch q2 →
        |Vec3.dot (Vec3.sub q2 q) plane0.dirU| ≤ 20 ∧
        |Vec3.dot (Vec3.sub q2 q) plane0.dirV| ≤ 20) := by
  have h1 : plane0.onPatch ⟨-20, 0, -20⟩ := by
    rw [plane0_onPatch_iff]; norm_num
  have h2 : plane0.onPatch ⟨20, 0, 20⟩ := by
    rw [plane0_onPatch_iff]; norm_num
  refine ⟨h1, h2, fun h => ?_⟩
  have h3 := (h _ _ h1 h2).1
  norm_num [Vec3.dot, Vec3.sub, plane0] at h3

/-- C2, amended: the ground plane (the first plane added) passes through
`y = 0`, is horizontal, has half-extents 20 and 20, and its patch is the
square `-20 ≤ x ≤ 20`, `-20 ≤ z ≤ 20` at `y = 0`: it spans 40 units by 40
units in total, a width that two of its corners attain. -/
theorem ground_plane_spans_40 :
    scene.planes.head? = some plane0 ∧
    plane0.point.y = 0 ∧ plane0.dirU.y = 0 ∧ plane0.dirV.y = 0 ∧
    plane0.size = ⟨20, 20⟩ ∧
    (∀ q : Vec3, plane0.onPatch q ↔
      q.y = 0 ∧ (-20 ≤ q.x ∧ q.x ≤ 20) ∧ (-20 ≤ q.z ∧ q.z ≤ 20)) ∧
    (∀ q q2 : Vec3, plane0.onPatch q → plane0.onPatch q2 →
      |Vec3.dot (Vec3.sub q2 q) plane0.dirU| ≤ 40 ∧
      |Vec3.dot (Vec3.sub q2 q) plane0.dirV| ≤ 40) ∧
    (∃ q q2 : Vec3, plane0.onPatch q ∧ plane0.onPatch q2 ∧
      Vec3.dot (Vec3.sub q2 q) plane0.dirU = 40 ∧
      Vec3.dot (Vec3.sub q2 q) plane0.dirV = 40) := by
  refine ⟨rfl, rfl, rfl, rfl, rfl, plane0_onPatch_iff, ?_, ?_⟩
  · intro q q2 hq hq2
    rw [plane0_onPatch_iff] at hq hq2
    obtain ⟨_, ⟨a1, a2⟩, ⟨a3, a4⟩⟩ := hq
    obtain ⟨_, ⟨b1, b2⟩, ⟨b3, b4⟩⟩ := hq2
    simp only [Vec3.dot, Vec3.sub, plane0, abs_le]
    refine ⟨⟨by linarith, by linarith⟩, ⟨by linarith, by linarith⟩⟩
  · refine ⟨⟨-20, 0, -20⟩, ⟨20, 0, 20⟩, ?_, ?_, ?_, ?_⟩
    · rw [plane0_onPatch_iff]; norm_num
    · rw [plane0_onPatch_iff]; norm_num
    · norm_num [Vec3.dot, Vec3.sub, plane0]
    · norm_num [Vec3.dot, Vec3.sub, plane0]

/-- C3: `main` adds five planes, and for every one of them each in-plane
direction has length exactly 1 (`sqrt (v · v) = 1`), the two directions have
dot product exactly 0, and both half-extents are strictly positive. -/
theorem planes_orthonormal (p : Plane) (hp : p ∈ scene.planes) :
    scene.planes.length = 5 ∧
    Vec3.dot p.dirU p.dirU = 1 ∧ Vec3.dot p.dirV p.dirV = 1 ∧
    Real.sqrt ((Vec3.dot p.dirU p.dirU : ℚ) : ℝ) = 1 ∧
    Real.sqrt ((Vec3.dot p.dirV p.dirV : ℚ) : ℝ) = 1 ∧
    Vec3.dot p.dirU p.dirV = 0 ∧
    0 < p.size.x ∧ 0 < p.size.y := by
  have key : Vec3.dot p.dirU p.dirU = 1 ∧ Vec3.dot p.dirV p.dirV = 1 ∧
      Vec3.dot p.dirU p.dirV = 0 ∧ 0 < p.size.x ∧ 0 < p.size.y := by
    rw [mem_scene_planes] at hp
    rcases hp with rfl | rfl | rfl | rfl | rfl <;>
      norm_num [plane0, plane1, plane2, plane3, plane4, Vec3.dot]
  obtain ⟨hu, hv, huv, hx, hy⟩ := key
  refine ⟨rfl, hu, hv, ?_, ?_, huv, hx, hy⟩
  · rw [hu]; simp
  · rw [hv]; simp

/-- C3, witness: the wall of lines 64-65 is one of the planes of the scene. -/
theorem planes_orthonormal_witness :
    plane3 ∈ scene.planes ∧
    Vec3.dot plane3.dirU plane3.dirU = 1 ∧ Vec3.dot plane3.dirU plane3.dirV = 0 :=
  have h : plane3 ∈ scene.planes := by rw [mem_scene_planes]; simp
  ⟨h, (planes_orthonormal plane3 h).2.1, (planes_orthonormal plane3 h).2.2.2.2.2.1⟩

/-- C4, counterexample: for the ground plane the cross product `dirU × dirV`
is `(0, -1, 0)`, and its dot product with the vector from the plane's point to
the centre `(0, 7.5, 0)` is `-7.5`, which is not strictly positive. -/
theorem ground_normal_not_inward :
    plane0 ∈ scene.planes ∧
    Vec3.cross plane0.dirU plane0.dirV = ⟨0, -1, 0⟩ ∧
    Vec3.dot (Vec3.cross plane0.dirU plane0.dirV) (Vec3.sub containerCentre plane0.point)
      = -15 / 2 ∧
    ¬ (0 < Vec3.dot (Vec3.cross plane0.dirU plane0.dirV)
        (Vec3.sub containerCentre plane0.point)) := by
  refine ⟨by rw [mem_scene_planes]; simp, ?_, ?_, ?_⟩ <;>
    norm_num [plane0, containerCentre, Vec3.cross, Vec3.dot, Vec3.sub]

/-- C4, amended: for every one of the five planes the cross product
`dirU × dirV` points away from the centre `(0, 7.5, 0)` of the container (its
dot product with the vector from the plane's point to the centre is strictly
negative), and the cross product in the other order, `dirV × dirU`, is the
inward normal (that dot product is strictly positive). -/
theorem planes_normal_orientation (p : Plane) (hp : p ∈ scene.planes) :
    Vec3.dot (Vec3.cross p.dirU p.dirV) (Vec3.sub containerCentre p.point) < 0 ∧
    0 < Vec3.dot (Vec3.cross p.dirV p.dirU) (Vec3.sub containerCentre p.point) := by
  rw [mem_scene_planes] at hp
  rcases hp with rfl | rfl | rfl | rfl | rfl <;>
    norm_num [plane0, plane1, plane2, plane3, plane4, containerCentre, Vec3.cross, Vec3.dot,
      Vec3.sub]

/-- C4, witness: the wall of lines 60-61, where `dirV × dirU = (1, 0, 0)`. -/
theorem planes_normal_orientation_witness :
    plane1 ∈ scene.planes ∧
    Vec3.dot (Vec3.cross plane1.dirU plane1.dirV) (Vec3.sub containerCentre plane1.point) < 0 ∧
    0 < Vec3.dot (Vec3.cross plane1.dirV plane1.dirU) (Vec3.sub containerCentre plane1.point) :=
  have h : plane1 ∈ scene.planes := by rw [mem_scene_planes]; simp
  ⟨h, planes_normal_orientation plane1 h⟩

/-- C5: the parameter set that `main` registers (the only one) has
`smoothingRadius2 = smoothingRadius * smoothingRadius` exactly and a strictly
positive `smoothingRadius`. -/
theorem params_invariant (p : SimulationParams) (hp : p ∈ scene.params) :
    p.smoothingRadius2 = p.smoothingRadius * p.smoothingRadius ∧ 0 < p.smoothingRadius := by
  rw [scene_params, List.mem_singleton] at hp
  subst hp
  norm_num [simulationParams]

/-- C5, witness: the parameter set of lines 45-53 is registered. -/
theorem params_invariant_witness :
    simulationParams ∈ scene.params ∧
    simulationParams.smoothingRadius2
      = simulationParams.smoothingRadius * simulationParams.smoothingRadius ∧
    0 < simulationParams.smoothingRadius :=
  have h : simulationParams ∈ scene.params := by rw [scene_params]; simp
  ⟨h, params_invariant simulationParams h⟩

/-- C7: the five planes form an open-topped box with no gaps.  The floor patch
is the square `x, z ∈ [-20, 20]` at `y = 0`; each wall patch covers exactly
`y ∈ [0, 15]` over one full side of that square (`x = -20`, `x = 20`,
`z = -20`, `z = 20`); every point of the floor's perimeter lies on a wall
patch; adjacent walls share the full vertical edge at each of the four
corners; no patch covers a point above the interior of the floor at `y = 15`;
and the spawn origin `(-6, 0, 0)` lies within the floor's extents and not
below the floor. -/
theorem planes_form_open_box :
    scene.planes = [plane0, plane1, plane2, plane3, plane4] ∧
    (∀ q : Vec3, plane0.onPatch q ↔
      q.y = 0 ∧ (-20 ≤ q.x ∧ q.x ≤ 20) ∧ (-20 ≤ q.z ∧ q.z ≤ 20)) ∧
    (∀ q : Vec3, plane1.onPatch q ↔
      q.x = -20 ∧ (0 ≤ q.y ∧ q.y ≤ 15) ∧ (-20 ≤ q.z ∧ q.z ≤ 20)) ∧
    (∀ q : Vec3, plane2.onPatch q ↔
      q.x = 20 ∧ (0 ≤ q.y ∧ q.y ≤ 15) ∧ (-20 ≤ q.z ∧ q.z ≤ 20)) ∧
    (∀ q : Vec3, plane3.onPatch q ↔
      q.z = -20 ∧ (0 ≤ q.y ∧ q.y ≤ 15) ∧ (-20 ≤ q.x ∧ q.x ≤ 20)) ∧
    (∀ q : Vec3, plane4.onPatch q ↔
      q.z = 20 ∧ (0 ≤ q.y ∧ q.y ≤ 15) ∧ (-20 ≤ q.x ∧ q.x ≤ 20)) ∧
    (∀ q : Vec3, plane0.onPatch q → (|q.x| = 20 ∨ |q.z| = 20) →
      plane1.onPatch q ∨ plane2.onPatch q ∨ plane3.onPatch q ∨ plane4.onPatch q) ∧
    (∀ y : ℚ, 0 ≤ y → y ≤ 15 →
      (plane1.onPatch ⟨-20, y, -20⟩ ∧ plane3.onPatch ⟨-20, y, -20⟩) ∧
      (plane1.onPatch ⟨-20, y, 20⟩ ∧ plane4.onPatch ⟨-20, y, 20⟩) ∧
      (plane2.onPatch ⟨20, y, -20⟩ ∧ plane3.onPatch ⟨20, y, -20⟩) ∧
      (plane2.onPatch ⟨20, y, 20⟩ ∧ plane4.onPatch ⟨20, y, 20⟩)) ∧
    (∀ q : Vec3, q.y = 15 → |q.x| < 20 → |q.z| < 20 →
      ∀ p ∈ scene.planes, ¬ p.onPatch q) ∧
    scene.spawnOrigin = ⟨-6, 0, 0⟩ ∧
    |Vec3.dot (Vec3.sub scene.spawnOrigin plane0.point) plane0.dirU| ≤ plane0.size.x ∧
    |Vec3.dot (Vec3.sub scene.spawnOrigin plane0.point) plane0.dirV| ≤ plane0.size.y ∧
    plane0.point.y ≤ scene.spawnOrigin.y := by
  refine ⟨rfl, plane0_onPatch_iff, plane1_onPatch_iff, plane2_onPatch_iff, plane3_onPatch_iff,
    plane4_onPatch_iff, ?_, ?_, ?_, rfl, ?_, ?_, ?_⟩
  · intro q hq hedge
    rw [plane0_onPatch_iff] at hq
    obtain ⟨hy, ⟨hx1, hx2⟩, ⟨hz1, hz2⟩⟩ := hq
    rw [plane1_onPatch_iff, plane2_onPatch_iff, plane3_onPatch_iff, plane4_onPatch_iff]
    have h15 : (0 : ℚ) ≤ q.y ∧ q.y ≤ 15 := by rw [hy]; norm_num
    rcases hedge with hx | hz
    · rcases abs_eq (by norm_num : (0 : ℚ) ≤ 20) |>.mp hx with h | h
      · exact Or.inr (Or.inl ⟨h, h15, hz1, hz2⟩)
      · exact Or.inl ⟨h, h15, hz1, hz2⟩
    · rcases abs_eq (by norm_num : (0 : ℚ) ≤ 20) |>.mp hz with h | h
      · exact Or.inr (Or.inr (Or.inr ⟨h, h15, hx1, hx2⟩))
      · exact Or.inr (Or.inr (Or.inl ⟨h, h15, hx1, hx2⟩))
  · intro y h0 h15
    simp only [plane1_onPatch_iff, plane2_onPatch_iff, plane3_onPatch_iff, plane4_onPatch_iff]
    norm_num [h0, h15]
  · intro q hy hx hz p hp
    rw [mem_scene_planes] at hp
    rw [abs_lt] at hx hz
    rcases hp with rfl | rfl | rfl | rfl | rfl
    · rw [plane0_onPatch_iff]; rintro ⟨h, _⟩; rw [hy] at h; norm_num at h
    · rw [plane1_onPatch_iff]; rintro ⟨h, _⟩; linarith
    · rw [plane2_onPatch_iff]; rintro ⟨h, _⟩; linarith
    · rw [plane3_onPatch_iff]; rintro ⟨h, _⟩; linarith
    · rw [plane4_onPatch_iff]; rintro ⟨h, _⟩; linarith
  · norm_num [scene, Simulator.addPlane, Simulator.addParticles, registered, Simulator.addParams,
      Simulator.new, plane0, Vec3.dot, Vec3.sub]
  · norm_num [scene, Simulator.addPlane, Simulator.addParticles, registered, Simulator.addParams,
      Simulator.new, plane0, Vec3.dot, Vec3.sub]
  · norm_num [scene, Simulator.addPlane, Simulator.addParticles, registered, Simulator.addParams,
      Simulator.new, plane0]

/-! ## The render loop: helper lemmas -/

theorem updatesOf_append (a b : List Call) : updatesOf (a ++ b) = updatesOf a ++ updatesOf b := by
  simp [updatesOf, List.filterMap_append]

theorem updatesOf_onKey (b : Bool) (c : Call) (hc : ∀ dt, c ≠ Call.update dt) :
    updatesOf (onKey b c) = [] := by
  cases b
  · rfl
  · cases c <;> first | rfl | exact absurd rfl (hc _)

theorem updatesOf_cameraCalls (k : Keys) (e : ℚ) : updatesOf (cameraCalls k e) = [] := by
  simp [cameraCalls, updatesOf_append, updatesOf_onKey]

theorem updatesOf_sleep (o : Option Int) :
    updatesOf (match o with
      | some ms => [Call.sleepFor ms]
      | none => []) = [] := by
  cases o <;> rfl

theorem iteration_updates (st : LoopState) (f : Frame) :
    updatesOf (iteration st f).2 = if st.runSim then [st.elapsed] else [] := by
  simp only [iteration, updatesOf_append, updatesOf_cameraCalls, updatesOf_sleep]
  rw [updatesOf_onKey _ _ (by intro dt h; cases h)]
  cases st.runSim <;> cases (f.keys.backspace && decide (_ > (200 : ℚ))) <;> simp [updatesOf]

theorem iteration_elapsed (st : LoopState) (f : Frame) :
    (iteration st f).1.elapsed = lastReading f := rfl

theorem lastReading_eq (f : Frame) :
    lastReading f = if f.timer1 = desiredFrametime then f.timer1 else f.timer2 := by
  by_cases h : f.timer1 = desiredFrametime <;> simp [lastReading, h]

theorem iteration_runSim (st : LoopState) (f : Frame) :
    (iteration st f).1.runSim =
      if f.keys.r = true ∧ 200 < st.elapsedSum + st.elapsed then !st.runSim else st.runSim := by
  simp only [iteration]
  by_cases h : 200 < st.elapsedSum + st.elapsed <;> cases f.keys.r <;> simp [h]

theorem iteration_elapsedSum (st : LoopState) (f : Frame) :
    (iteration st f).1.elapsedSum =
      if (f.keys.r = true ∨ f.keys.backspace = true) ∧ 200 < st.elapsedSum + st.elapsed then 0
      else st.elapsedSum + st.elapsed := by
  simp only [iteration]
  by_cases h : 200 < st.elapsedSum + st.elapsed <;> cases f.keys.r <;>
    cases f.keys.backspace <;> simp [h]

theorem toggles_iff (st : LoopState) (f : Frame) :
    toggles st f = true ↔ f.keys.r = true ∧ 200 < st.elapsedSum + st.elapsed := by
  simp only [toggles, iteration_runSim, decide_eq_true_eq]
  by_cases h : f.keys.r = true ∧ 200 < st.elapsedSum + st.elapsed
  · simp [h]
  · simp [h]

theorem stateAfter_cons (st : LoopState) (f : Frame) (fs : List Frame) :
    stateAfter st (f :: fs) = stateAfter (iteration st f).1 fs := rfl

theorem stateAfter_append (st : LoopState) (fs gs : List Frame) :
    stateAfter st (fs ++ gs) = stateAfter (stateAfter st fs) gs := by
  simp [stateAfter, List.foldl_append]

theorem sleepsOf_append (a b : List Call) : sleepsOf (a ++ b) = sleepsOf a ++ sleepsOf b := by
  simp [sleepsOf, List.filterMap_append]

theorem sleepsOf_onKey (b : Bool) (c : Call) (hc : ∀ ms, c ≠ Call.sleepFor ms) :
    sleepsOf (onKey b c) = [] := by
  cases b
  · rfl
  · cases c <;> first | rfl | exact absurd rfl (hc _)

theorem sleepsOf_cameraCalls (k : Keys) (e : ℚ) : sleepsOf (cameraCalls k e) = [] := by
  simp [cameraCalls, sleepsOf_append, sleepsOf_onKey]

theorem iteration_sleeps (st : LoopState) (f : Frame) :
    sleepsOf (iteration st f).2 = (sleepRequest f.timer1).toList := by
  simp only [iteration, sleepsOf_append, sleepsOf_cameraCalls]
  rw [sleepsOf_onKey _ _ (by intro ms h; cases h)]
  cases st.runSim <;> cases (f.keys.backspace && decide (_ > (200 : ℚ))) <;>
    cases sleepRequest f.timer1 <;> simp [sleepsOf]

theorem toInt_of_nonneg {x : ℚ} (h : 0 ≤ x) : toInt x = ⌊x⌋ := by
  simp [toInt, h]

theorem toInt_of_neg {x : ℚ} (h : x < 0) : toInt x = ⌈x⌉ := by
  simp [toInt, not_le.mpr h]

/-! ### Single precision: helper lemmas -/

theorem floor_le_roundHalfEven (t : ℚ) : ⌊t⌋ ≤ roundHalfEven t := by
  unfold roundHalfEven
  split_ifs <;> omega

theorem roundHalfEven_le_floor_succ (t : ℚ) : roundHalfEven t ≤ ⌊t⌋ + 1 := by
  unfold roundHalfEven
  split_ifs <;> omega

theorem roundHalfEven_intCast (m : Int) : roundHalfEven (m : ℚ) = m := by
  simp [roundHalfEven]

theorem le_roundHalfEven {m : Int} {t : ℚ} (h : (m : ℚ) ≤ t) : m ≤ roundHalfEven t :=
  le_trans (Int.le_floor.mpr h) (floor_le_roundHalfEven t)

theorem roundHalfEven_le {m : Int} {t : ℚ} (h : t ≤ (m : ℚ)) : roundHalfEven t ≤ m := by
  rcases eq_or_lt_of_le h with h | h
  · rw [h, roundHalfEven_intCast]
  · have : ⌊t⌋ < m := Int.floor_lt.mpr h
    have := roundHalfEven_le_floor_succ t
    omega

theorem abs_roundHalfEven_sub (t : ℚ) : |(roundHalfEven t : ℚ) - t| ≤ 1 / 2 := by
  have h1 : ((⌊t⌋ : Int) : ℚ) ≤ t := Int.floor_le t
  have h2 : t < ((⌊t⌋ : Int) : ℚ) + 1 := Int.lt_floor_add_one t
  unfold roundHalfEven
  rw [abs_le]
  split_ifs with a b c <;> push_cast <;> constructor <;> linarith

theorem f32Quantum_pos (x : ℚ) : 0 < f32Quantum x := by
  unfold f32Quantum
  positivity

theorem f32Exponent_le {x : ℚ} {n : Int} (hn : 0 ≤ n) (hx : |x| < 2 ^ (n + 1)) :
    f32Exponent x ≤ n := by
  unfold f32Exponent
  refine max_le ?_ (by omega)
  rcases eq_or_lt_of_le (abs_nonneg x) with h | h
  · rw [← h, Int.log_zero_right]; exact hn
  · have := (Int.lt_zpow_iff_log_lt (b := 2) (by norm_num) h).mp (by exact_mod_cast hx)
    omega

theorem f32Exponent_eq {x : ℚ} {n : Int} (hn : -126 ≤ n) (h1 : 2 ^ n ≤ |x|)
    (h2 : |x| < 2 ^ (n + 1)) : f32Exponent x = n := by
  have hpos : 0 < |x| := lt_of_lt_of_le (by positivity) h1
  have a := (Int.lt_zpow_iff_log_lt (b := 2) (by norm_num) hpos).mp (by exact_mod_cast h2)
  have b := (Int.zpow_le_iff_le_log (b := 2) (by norm_num) hpos).mp (by exact_mod_cast h1)
  unfold f32Exponent
  rw [max_eq_left (by omega)]
  omega

theorem roundF32_zero : roundF32 0 = 0 := by
  simp [roundF32, roundHalfEven]

theorem le_roundF32_of_grid {x : ℚ} (m : Int) (h : (m : ℚ) * f32Quantum x ≤ x) :
    (m : ℚ) * f32Quantum x ≤ roundF32 x := by
  have hq := f32Quantum_pos x
  have h1 : (m : ℚ) ≤ x / f32Quantum x := (le_div_iff₀ hq).mpr h
  have h2 : ((m : Int) : ℚ) ≤ (roundHalfEven (x / f32Quantum x) : ℚ) := by
    exact_mod_cast le_roundHalfEven h1
  exact mul_le_mul_of_nonneg_right h2 hq.le

theorem roundF32_le_of_grid {x : ℚ} (m : Int) (h : x ≤ (m : ℚ) * f32Quantum x) :
    roundF32 x ≤ (m : ℚ) * f32Quantum x := by
  have hq := f32Quantum_pos x
  have h1 : x / f32Quantum x ≤ (m : ℚ) := (div_le_iff₀ hq).mpr h
  have h2 : (roundHalfEven (x / f32Quantum x) : ℚ) ≤ ((m : Int) : ℚ) := by
    exact_mod_cast roundHalfEven_le h1
  exact mul_le_mul_of_nonneg_right h2 hq.le

theorem grid_of_exponent_le (x : ℚ) (k s : Int) (hs : f32Exponent x - 23 ≤ s) :
    ∃ m : Int, (k : ℚ) * 2 ^ s = (m : ℚ) * f32Quantum x := by
  refine ⟨k * 2 ^ (s - (f32Exponent x - 23)).toNat, ?_⟩
  have hs2 : ((s - (f32Exponent x - 23)).toNat : Int) = s - (f32Exponent x - 23) :=
    Int.toNat_of_nonneg (by omega)
  unfold f32Quantum
  push_cast
  rw [mul_assoc, ← zpow_natCast, hs2, ← zpow_add₀ (by norm_num : (2 : ℚ) ≠ 0)]
  congr 2
  ring

theorem abs_roundF32_sub (x : ℚ) : |roundF32 x - x| ≤ f32Quantum x / 2 := by
  have hq := f32Quantum_pos x
  have h := abs_roundHalfEven_sub (x / f32Quantum x)
  have e : roundF32 x - x = ((roundHalfEven (x / f32Quantum x) : ℚ) - x / f32Quantum x)
      * f32Quantum x := by
    unfold roundF32
    field_simp
  rw [e, abs_mul, abs_of_pos hq]
  calc |(roundHalfEven (x / f32Quantum x) : ℚ) - x / f32Quantum x| * f32Quantum x
      ≤ 1 / 2 * f32Quantum x := mul_le_mul_of_nonneg_right h hq.le
    _ = f32Quantum x / 2 := by ring

theorem f32Quantum_le {x : ℚ} {n : Int} (hn : 0 ≤ n) (hx : |x| < 2 ^ (n + 1)) :
    f32Quantum x ≤ 2 ^ (n - 23) := by
  unfold f32Quantum
  exact zpow_le_zpow_right₀ (by norm_num) (by have := f32Exponent_le hn hx; omega)

theorem roundF32_nonneg {x : ℚ} (h : 0 ≤ x) : 0 ≤ roundF32 x := by
  have := le_roundF32_of_grid (x := x) 0 (by simpa using h)
  simpa using this

theorem roundF32_nonpos {x : ℚ} (h : x ≤ 0) : roundF32 x ≤ 0 := by
  have := roundF32_le_of_grid (x := x) 0 (by simpa using h)
  simpa using this

theorem intCast_le_roundF32 {x : ℚ} (k : Int) (hx : |x| < 2 ^ 24) (h : (k : ℚ) ≤ x) :
    (k : ℚ) ≤ roundF32 x := by
  have hE : f32Exponent x ≤ 23 := f32Exponent_le (n := 23) (by norm_num) (by
    have e : (2 : ℚ) ^ ((23 : Int) + 1) = 2 ^ 24 := by norm_num
    rw [e]; exact hx)
  obtain ⟨m, hm⟩ := grid_of_exponent_le x k 0 (by omega)
  rw [zpow_zero, mul_one] at hm
  rw [hm] at h ⊢
  exact le_roundF32_of_grid m h

theorem roundF32_eval {x : ℚ} (n : Int) (hn : -126 ≤ n) (h1 : 2 ^ n ≤ |x|)
    (h2 : |x| < 2 ^ (n + 1)) :
    roundF32 x = (roundHalfEven (x / 2 ^ (n - 23)) : ℚ) * 2 ^ (n - 23) := by
  unfold roundF32 f32Quantum
  rw [f32Exponent_eq hn h1 h2]

theorem roundHalfEven_eq_of_lt {t : ℚ} (n : Int) (h1 : (n : ℚ) ≤ t) (h2 : t < n + 1 / 2) :
    roundHalfEven t = n := by
  have hf : ⌊t⌋ = n := Int.floor_eq_iff.mpr ⟨h1, by linarith⟩
  unfold roundHalfEven
  rw [hf, if_pos (by linarith)]

theorem roundHalfEven_eq_of_gt {t : ℚ} (n : Int) (h1 : (n : ℚ) + 1 / 2 < t) (h2 : t < n + 1) :
    roundHalfEven t = n + 1 := by
  have hf : ⌊t⌋ = n := Int.floor_eq_iff.mpr ⟨by linarith, h2⟩
  unfold roundHalfEven
  rw [hf, if_neg (by linarith), if_pos (by linarith)]

theorem roundHalfEven_eq_of_tie {t : ℚ} (n : Int) (h : t = n + 1 / 2) (hodd : n % 2 = 1) :
    roundHalfEven t = n + 1 := by
  have hf : ⌊t⌋ = n := Int.floor_eq_iff.mpr ⟨by linarith, by linarith⟩
  unfold roundHalfEven
  rw [hf, if_neg (by linarith), if_neg (by linarith), if_neg (by omega)]

theorem desiredFrametime_eq : desiredFrametime = 8738133 / 524288 := by
  unfold desiredFrametime
  rw [roundF32_eval 4 (by norm_num) (by norm_num [abs_of_pos]) (by norm_num [abs_of_pos]),
    roundHalfEven_eq_of_lt 8738133 (by norm_num) (by norm_num)]
  norm_num

theorem toInt_nonpos {r : ℚ} (h : r ≤ 0) : toInt r ≤ 0 := by
  unfold toInt
  split_ifs with h0
  · have : r = 0 := le_antisymm h h0
    simp [this]
  · exact Int.ceil_le.mpr (by simpa using h)

theorem le_toInt_of_le {r : ℚ} {k : Int} (hk : k ≤ 0) (h : (k : ℚ) ≤ r) : k ≤ toInt r := by
  unfold toInt
  split_ifs with h0
  · exact le_trans hk (Int.floor_nonneg.mpr h0)
  · have hc : r ≤ ((⌈r⌉ : Int) : ℚ) := Int.le_ceil r
    exact_mod_cast le_trans h hc

theorem requestedDelay_eq (e : ℚ) :
    requestedDelay e = toInt (roundF32 (desiredFrametime - e)) := by
  by_cases h : e = desiredFrametime
  · simp [requestedDelay, sleepRequest, h, roundF32_zero, toInt]
  · simp [requestedDelay, sleepRequest, h]

/-- The frame-time bounds of the requested delay, for a reading within the
budget. -/
theorem requestedDelay_bounds (e : ℚ) (h0 : 0 ≤ e) (hD : e ≤ desiredFrametime) :
    0 ≤ requestedDelay e ∧ requestedDelay e ≤ 16 ∧
    e + requestedDelay e ≤ desiredFrametime + 1 / 2 ^ 21 ∧
    desiredFrametime - 1 < e + requestedDelay e := by
  have hd := desiredFrametime_eq
  have hx0 : 0 ≤ desiredFrametime - e := by linarith
  have hxD : desiredFrametime - e ≤ 8738133 / 524288 := by linarith
  have habs : |desiredFrametime - e| = desiredFrametime - e := abs_of_nonneg hx0
  have hr0 : 0 ≤ roundF32 (desiredFrametime - e) := roundF32_nonneg hx0
  rw [requestedDelay_eq, toInt_of_nonneg hr0]
  have hfl : ((⌊roundF32 (desiredFrametime - e)⌋ : Int) : ℚ) ≤ roundF32 (desiredFrametime - e) :=
    Int.floor_le _
  -- the rounded difference is below 17
  have hq5 : f32Quantum (desiredFrametime - e) ≤ 1 / 524288 :=
    le_trans (f32Quantum_le (n := 4) (by norm_num) (by rw [habs]; norm_num; linarith))
      (by norm_num)
  have herr := abs_le.mp (abs_roundF32_sub (desiredFrametime - e))
  have h17 : ⌊roundF32 (desiredFrametime - e)⌋ < 17 := by
    rw [Int.floor_lt]
    push_cast
    linarith [herr.2]
  have h16 : ⌊roundF32 (desiredFrametime - e)⌋ ≤ 16 := by omega
  -- a whole number below the difference stays below the rounded difference
  have hlow : ⌊desiredFrametime - e⌋ ≤ ⌊roundF32 (desiredFrametime - e)⌋ := by
    rw [Int.le_floor]
    exact intCast_le_roundF32 _ (by rw [habs]; norm_num; linarith) (Int.floor_le _)
  have hlt : desiredFrametime - e - 1 < ((⌊desiredFrametime - e⌋ : Int) : ℚ) :=
    Int.sub_one_lt_floor _
  have hlow2 : ((⌊desiredFrametime - e⌋ : Int) : ℚ)
      ≤ ((⌊roundF32 (desiredFrametime - e)⌋ : Int) : ℚ) := by exact_mod_cast hlow
  refine ⟨Int.floor_nonneg.mpr hr0, h16, ?_, by linarith⟩
  by_cases hx16 : desiredFrametime - e < 16
  · have hq4 : f32Quantum (desiredFrametime - e) ≤ 1 / 1048576 :=
      le_trans (f32Quantum_le (n := 3) (by norm_num) (by rw [habs]; norm_num; linarith))
        (by norm_num)
    have h21 : (1 : ℚ) / 2 ^ 21 = 1 / 2097152 := by norm_num
    rw [h21]
    linarith [herr.2]
  · have h16q : ((⌊roundF32 (desiredFrametime - e)⌋ : Int) : ℚ) ≤ 16 := by exact_mod_cast h16
    have hp : (0 : ℚ) ≤ 1 / 2 ^ 21 := by positivity
    linarith

theorem runSim_of_not_toggles (st : LoopState) (f : Frame) (h : toggles st f = false) :
    (iteration st f).1.runSim = st.runSim := by
  simpa [toggles] using h

theorem runSim_stateAfter_of_no_toggle (pre : List Frame) (st : LoopState)
    (h : ∀ pre1 g post1, pre = pre1 ++ g :: post1 → toggles (stateAfter st pre1) g = false) :
    (stateAfter st pre).runSim = st.runSim := by
  induction pre generalizing st with
  | nil => rfl
  | cons f fs ih =>
    rw [stateAfter_cons, ih (iteration st f).1, runSim_of_not_toggles st f (h [] f fs rfl)]
    intro pre1 g post1 hfs
    have := h (f :: pre1) g post1 (by rw [hfs]; rfl)
    rwa [stateAfter_cons] at this

theorem updatesOf_callsOver_length (fs : List Frame) (st : LoopState) :
    (updatesOf (callsOver st fs)).length = (runHistory st fs).count true := by
  induction fs generalizing st with
  | nil => rfl
  | cons f fs ih =>
    simp only [callsOver, runHistory, updatesOf_append, List.length_append, ih, iteration_updates,
      List.count_cons]
    cases st.runSim
    · simp
    · simp
      omega

theorem lastReading_of_timerReadings (f g : Frame) (h : timerReadings f = timerReadings g) :
    lastReading f = lastReading g := by
  unfold timerReadings at h
  unfold lastReading
  by_cases hf : f.timer1 = desiredFrametime <;> by_cases hg : g.timer1 = desiredFrametime <;>
    simp_all

theorem frameTimes_eq (fs : List Frame) (st : LoopState) :
    frameTimes st fs = (st.elapsed :: fs.map lastReading).take fs.length := by
  induction fs generalizing st with
  | nil => rfl
  | cons f fs ih =>
    simp only [frameTimes, List.map_cons, List.length_cons, List.take_succ_cons, ih,
      iteration_elapsed]

theorem updatesOf_callsOver_congr (fs : List Frame) :
    ∀ (gs : List Frame) (st st2 : LoopState), st.elapsed = st2.elapsed →
      fs.map timerReadings = gs.map timerReadings → runHistory st fs = runHistory st2 gs →
      updatesOf (callsOver st fs) = updatesOf (callsOver st2 gs) := by
  induction fs with
  | nil =>
    intro gs st st2 _ ht _
    cases gs with
    | nil => rfl
    | cons g gs => simp at ht
  | cons f fs ih =>
    intro gs st st2 he ht hr
    cases gs with
    | nil => simp at ht
    | cons g gs =>
      simp only [List.map_cons, List.cons.injEq] at ht
      simp only [runHistory, List.cons.injEq] at hr
      simp only [callsOver, updatesOf_append, iteration_updates]
      rw [ih gs (iteration st f).1 (iteration st2 g).1 ?_ ht.2 hr.2, hr.1, he]
      rw [iteration_elapsed, iteration_elapsed]
      exact lastReading_of_timerReadings f g ht.1

theorem iteration_withShift (st : LoopState) (f : Frame) (b : Bool) :
    (iteration st (withShift f b)).1 = (iteration st f).1 := rfl

/-! ## The render loop: the claims -/

/-- C10, counterexample: two binary32 frame times within the budget.  For
`elapsed = 11184801 / 2^24` (about 0.66666609) the single-precision difference
rounds up to `16.0f`, 16 ms are requested, and `elapsed + 16` exceeds the
program's `desiredFrametime`.  For `elapsed = 11184809 / 2^24` (about
0.66666657) 15 ms are requested, and `elapsed + 15` is not above
`1000/60 - 1`.  The program's constant is `8738133 / 524288`, not `1000/60`. -/
theorem frame_pacing_off_by_rounding :
    desiredFrametime ≠ 1000 / 60 ∧
    roundF32 (11184801 / 16777216) = 11184801 / 16777216 ∧
    (0 : ℚ) ≤ 11184801 / 16777216 ∧ (11184801 / 16777216 : ℚ) ≤ desiredFrametime ∧
    sleepRequest (11184801 / 16777216) = some 16 ∧
    ¬ ((11184801 / 16777216 : ℚ) + 16 ≤ desiredFrametime) ∧
    roundF32 (11184809 / 16777216) = 11184809 / 16777216 ∧
    (11184809 / 16777216 : ℚ) ≤ desiredFrametime ∧
    sleepRequest (11184809 / 16777216) = some 15 ∧
    ¬ ((1000 / 60 : ℚ) - 1 < 11184809 / 16777216 + 15) := by
  have hd := desiredFrametime_eq
  have r1 : roundF32 (11184801 / 16777216) = 11184801 / 16777216 := by
    rw [roundF32_eval (-1) (by norm_num) (by norm_num [abs_of_pos]) (by norm_num [abs_of_pos]),
      roundHalfEven_eq_of_lt 11184801 (by norm_num) (by norm_num)]
    norm_num
  have r2 : roundF32 (11184809 / 16777216) = 11184809 / 16777216 := by
    rw [roundF32_eval (-1) (by norm_num) (by norm_num [abs_of_pos]) (by norm_num [abs_of_pos]),
      roundHalfEven_eq_of_lt 11184809 (by norm_num) (by norm_num)]
    norm_num
  have x1 : desiredFrametime - 11184801 / 16777216 = 268435455 / 16777216 := by
    rw [hd]; norm_num
  have x2 : desiredFrametime - 11184809 / 16777216 = 268435447 / 16777216 := by
    rw [hd]; norm_num
  have d1 : roundF32 (268435455 / 16777216) = 16 := by
    rw [roundF32_eval 3 (by norm_num) (by norm_num [abs_of_pos]) (by norm_num [abs_of_pos]),
      roundHalfEven_eq_of_gt 16777215 (by norm_num) (by norm_num)]
    norm_num
  have d2 : roundF32 (268435447 / 16777216) = 16777215 / 1048576 := by
    rw [roundF32_eval 3 (by norm_num) (by norm_num [abs_of_pos]) (by norm_num [abs_of_pos]),
      roundHalfEven_eq_of_lt 16777215 (by norm_num) (by norm_num)]
    norm_num
  have t1 : toInt (16 : ℚ) = 16 := by
    rw [toInt_of_nonneg (by norm_num)]
    exact Int.floor_eq_iff.mpr ⟨by norm_num, by norm_num⟩
  have t2 : toInt (16777215 / 1048576 : ℚ) = 15 := by
    rw [toInt_of_nonneg (by norm_num)]
    exact Int.floor_eq_iff.mpr ⟨by norm_num, by norm_num⟩
  have n1 : (11184801 / 16777216 : ℚ) ≠ desiredFrametime := by rw [hd]; norm_num
  have n2 : (11184809 / 16777216 : ℚ) ≠ desiredFrametime := by rw [hd]; norm_num
  refine ⟨by rw [hd]; norm_num, r1, by norm_num, by rw [hd]; norm_num, ?_, by rw [hd]; norm_num,
    r2, by rw [hd]; norm_num, ?_, by norm_num⟩
  · rw [sleepRequest, if_pos n1, x1, d1, t1]
  · rw [sleepRequest, if_pos n2, x2, d2, t2]

/-- C10, amended: frame pacing in single precision.  `desiredFrametime` is the
binary32 quotient `1000.0f / 60.0f = 8738133 / 524288` and the delay is the
binary32 difference `desiredFrametime - elapsed` converted to `int`.  For
every first reading `0 ≤ elapsed ≤ desiredFrametime` the requested delay is a
whole number of milliseconds in `[0, 16]` with
`desiredFrametime - 1 < elapsed + delay ≤ desiredFrametime + 2^-21`, a bound
that the binary32 reading `1398101 / 2^21` attains, and below
`desiredFrametime` the delay is the argument `sleep_for` gets; for every
`elapsed > desiredFrametime` the argument of `sleep_for` is not positive (and
fits an `int` for readings up to `2^31` ms); no sleep is requested when
`elapsed = desiredFrametime`; and the `sleep_for` call of an iteration is the
one requested for its first timer reading. -/
theorem frame_pacing :
    desiredFrametime = 8738133 / 524288 ∧
    (∀ e : ℚ, 0 ≤ e → e ≤ desiredFrametime →
      0 ≤ requestedDelay e ∧ requestedDelay e ≤ 16 ∧
      e + requestedDelay e ≤ desiredFrametime + 1 / 2 ^ 21 ∧
      desiredFrametime - 1 < e + requestedDelay e) ∧
    (roundF32 (1398101 / 2097152) = 1398101 / 2097152 ∧
      (1398101 / 2097152 : ℚ) + requestedDelay (1398101 / 2097152)
        = desiredFrametime + 1 / 2 ^ 21) ∧
    (∀ e : ℚ, 0 ≤ e → e < desiredFrametime → sleepRequest e = some (requestedDelay e)) ∧
    (∀ e : ℚ, desiredFrametime < e →
      ∃ k : Int, sleepRequest e = some k ∧ k ≤ 0 ∧ (e ≤ 2 ^ 31 → -2 ^ 31 ≤ k)) ∧
    sleepRequest desiredFrametime = none ∧
    (∀ (st : LoopState) (f : Frame),
      sleepsOf (iteration st f).2 = (sleepRequest f.timer1).toList) := by
  have hd := desiredFrametime_eq
  refine ⟨hd, requestedDelay_bounds, ?_, ?_, ?_, ?_, iteration_sleeps⟩
  · have r3 : roundF32 (1398101 / 2097152) = 1398101 / 2097152 := by
      rw [roundF32_eval (-1) (by norm_num) (by norm_num [abs_of_pos]) (by norm_num [abs_of_pos]),
        roundHalfEven_eq_of_lt 11184808 (by norm_num) (by norm_num)]
      norm_num
    have x3 : desiredFrametime - 1398101 / 2097152 = 33554431 / 2097152 := by
      rw [hd]; norm_num
    have d3 : roundF32 (33554431 / 2097152) = 16 := by
      rw [roundF32_eval 3 (by norm_num) (by norm_num [abs_of_pos]) (by norm_num [abs_of_pos]),
        roundHalfEven_eq_of_tie 16777215 (by norm_num) (by norm_num)]
      norm_num
    have t3 : toInt (16 : ℚ) = 16 := by
      rw [toInt_of_nonneg (by norm_num)]
      exact Int.floor_eq_iff.mpr ⟨by norm_num, by norm_num⟩
    refine ⟨r3, ?_⟩
    rw [requestedDelay_eq, x3, d3, t3, hd]
    norm_num
  · intro e _ hD
    have hne : e ≠ desiredFrametime := ne_of_lt hD
    simp [requestedDelay, sleepRequest, hne]
  · intro e hD
    have hne : e ≠ desiredFrametime := ne_of_gt hD
    have hx : desiredFrametime - e < 0 := by linarith
    have hr : roundF32 (desiredFrametime - e) ≤ 0 := roundF32_nonpos hx.le
    refine ⟨toInt (roundF32 (desiredFrametime - e)), by simp [sleepRequest, hne],
      toInt_nonpos hr, ?_⟩
    intro h31
    have habs : |desiredFrametime - e| < 2 ^ ((30 : Int) + 1) := by
      rw [abs_of_neg hx, hd]
      norm_num
      linarith
    have hE : f32Exponent (desiredFrametime - e) ≤ 30 := f32Exponent_le (by norm_num) habs
    obtain ⟨m, hm⟩ := grid_of_exponent_le (desiredFrametime - e) (-1) 31 (by omega)
    have hle : ((-1 : Int) : ℚ) * 2 ^ (31 : Int) ≤ desiredFrametime - e := by
      rw [hd]
      norm_num
      linarith
    have hge : ((-1 : Int) : ℚ) * 2 ^ (31 : Int) ≤ roundF32 (desiredFrametime - e) := by
      rw [hm] at hle ⊢
      exact le_roundF32_of_grid m hle
    refine le_toInt_of_le (by norm_num) ?_
    have e31 : ((-2 ^ 31 : Int) : ℚ) = ((-1 : Int) : ℚ) * 2 ^ (31 : Int) := by norm_num
    rw [e31]
    exact hge
  · simp [sleepRequest]

/-- C10, witness: a frame measured at 10 ms is within the budget, and a delay
of 6 ms is requested for it. -/
theorem frame_pacing_witness :
    (0 : ℚ) ≤ 10 ∧ (10 : ℚ) ≤ desiredFrametime ∧
    (0 ≤ requestedDelay 10 ∧ requestedDelay 10 ≤ 16 ∧
      10 + requestedDelay 10 ≤ desiredFrametime + 1 / 2 ^ 21 ∧
      desiredFrametime - 1 < 10 + requestedDelay 10) ∧
    requestedDelay 10 = 6 := by
  have h0 : (0 : ℚ) ≤ 10 := by norm_num
  have hD : (10 : ℚ) ≤ desiredFrametime := by rw [desiredFrametime_eq]; norm_num
  have h := frame_pacing.2.1 10 h0 hD
  refine ⟨h0, hD, h, ?_⟩
  obtain ⟨_, _, h3, h4⟩ := h
  rw [desiredFrametime_eq] at h3 h4
  have a : ((requestedDelay 10 : Int) : ℚ) < 7 := by norm_num at h3; linarith
  have b : (5 : ℚ) < ((requestedDelay 10 : Int) : ℚ) := by linarith
  have a2 : requestedDelay 10 < 7 := by exact_mod_cast a
  have b2 : 5 < requestedDelay 10 := by exact_mod_cast b
  omega

/-- C6: `simulator.update` is invoked exactly once in an iteration that starts
with `runSim` true, with the value of `elapsed`, and not at all in one that
starts with `runSim` false; over any run the number of updates is the number
of iterations that started running; `runSim` starts false, so an iteration
that issues an update is preceded by an iteration in which R was down with
`elapsedSum > 200` at the test of line 204. -/
theorem update_iff_running :
    initialState.runSim = false ∧
    (∀ (st : LoopState) (f : Frame), st.runSim = true →
      updatesOf (iteration st f).2 = [st.elapsed]) ∧
    (∀ (st : LoopState) (f : Frame), st.runSim = false →
      updatesOf (iteration st f).2 = []) ∧
    (∀ (st : LoopState) (fs : List Frame),
      (updatesOf (callsOver st fs)).length = (runHistory st fs).count true) ∧
    (∀ (pre : List Frame) (f : Frame),
      updatesOf (iteration (stateAfter initialState pre) f).2 ≠ [] →
      ∃ pre1 g post1, pre = pre1 ++ g :: post1 ∧ g.keys.r = true ∧
        200 < (stateAfter initialState pre1).elapsedSum +
          (stateAfter initialState pre1).elapsed) := by
  refine ⟨rfl, ?_, ?_, fun st fs => updatesOf_callsOver_length fs st, ?_⟩
  · intro st f h
    rw [iteration_updates, if_pos h]
  · intro st f h
    rw [iteration_updates, h]
    rfl
  · intro pre f hup
    by_contra hno
    have hquiet : ∀ pre1 g post1, pre = pre1 ++ g :: post1 →
        toggles (stateAfter initialState pre1) g = false := by
      intro pre1 g post1 hpre
      by_contra ht
      rw [Bool.not_eq_false, toggles_iff] at ht
      exact hno ⟨pre1, g, post1, hpre, ht.1, ht.2⟩
    have hrun := runSim_stateAfter_of_no_toggle pre initialState hquiet
    rw [iteration_updates, hrun] at hup
    exact hup rfl

/-- C6, witness: after a 300 ms frame, R is down in the second iteration with
`elapsedSum = 300.1`, and the third iteration issues one update. -/
theorem update_iff_running_witness :
    updatesOf (iteration (stateAfter initialState [⟨noKeys, 300, 300⟩, ⟨rKeys, 20, 18⟩])
      ⟨noKeys, 20, 17⟩).2 = [18] ∧
    ∃ pre1 g post1, [(⟨noKeys, 300, 300⟩ : Frame), ⟨rKeys, 20, 18⟩] = pre1 ++ g :: post1 ∧
      g.keys.r = true ∧
      200 < (stateAfter initialState pre1).elapsedSum +
        (stateAfter initialState pre1).elapsed := by
  have hst : stateAfter initialState [⟨noKeys, 300, 300⟩, ⟨rKeys, 20, 18⟩] = ⟨true, 18, 0⟩ := by
    norm_num [stateAfter, iteration, initialState, noKeys, rKeys, lastReading, desiredFrametime_eq]
  have hup : updatesOf (iteration (stateAfter initialState
      [⟨noKeys, 300, 300⟩, ⟨rKeys, 20, 18⟩]) ⟨noKeys, 20, 17⟩).2 = [18] := by
    rw [iteration_updates, hst]
    rfl
  exact ⟨hup, update_iff_running.2.2.2.2 _ _ (by rw [hup]; simp)⟩

/-- C8: the elapsed time supplied to `simulator.update` depends only on the
timer.  `elapsed` is 0.1 when the loop is entered and, after an iteration, the
last timer reading that iteration took, so the values at the start of the
iterations are 0.1 followed by the last readings; the update of an iteration
gets that value even with LEFT_SHIFT down, whose factor 5 reaches the camera
calls only; two runs with the same timer readings and the same `runSim`
history pass the same sequence of values to `update`, whatever the keys; and
`elapsedSum` after an iteration is 0 or the old sum plus the unscaled
`elapsed`. -/
theorem update_time_from_timer :
    initialState.elapsed = 1 / 10 ∧
    (∀ (st : LoopState) (f : Frame),
      (iteration st f).1.elapsed =
        if f.timer1 = desiredFrametime then f.timer1 else f.timer2) ∧
    (∀ (fs : List Frame),
      frameTimes initialState fs = ((1 / 10 : ℚ) :: fs.map lastReading).take fs.length) ∧
    (∀ (st : LoopState) (f : Frame),
      updatesOf (iteration st f).2 = if st.runSim then [st.elapsed] else []) ∧
    (∀ (st : LoopState) (f : Frame) (b : Bool),
      (iteration st (withShift f b)).1 = (iteration st f).1 ∧
      updatesOf (iteration st (withShift f b)).2 = updatesOf (iteration st f).2) ∧
    (∀ (st : LoopState) (f : Frame), f.keys.leftShift = true → f.keys.w = true →
      Call.processKeyboard .FORWARD (st.elapsed * 5) ∈ (iteration st f).2) ∧
    (∀ (fs gs : List Frame), fs.map timerReadings = gs.map timerReadings →
      runHistory initialState fs = runHistory initialState gs →
      updatesOf (callsOver initialState fs) = updatesOf (callsOver initialState gs)) ∧
    (∀ (st : LoopState) (f : Frame),
      (iteration st f).1.elapsedSum = 0 ∨
      (iteration st f).1.elapsedSum = st.elapsedSum + st.elapsed) := by
  refine ⟨by norm_num [initialState], ?_, ?_, iteration_updates, ?_, ?_, ?_, ?_⟩
  · intro st f
    rw [iteration_elapsed, lastReading_eq]
  · intro fs
    rw [frameTimes_eq]
    norm_num [initialState]
  · intro st f b
    refine ⟨iteration_withShift st f b, ?_⟩
    rw [iteration_updates, iteration_updates]
  · intro st f hs hw
    simp [iteration, cameraCalls, onKey, hs, hw]
  · intro fs gs ht hr
    exact updatesOf_callsOver_congr fs gs initialState initialState rfl ht hr
  · intro st f
    rw [iteration_elapsedSum]
    by_cases h : (f.keys.r = true ∨ f.keys.backspace = true) ∧ 200 < st.elapsedSum + st.elapsed
    · exact Or.inl (if_pos h)
    · exact Or.inr (if_neg h)

/-- C8, witness: two runs with the same timer readings, R down in the second
iteration of both, and LEFT_SHIFT and W down in the third iteration of the
first run only: both pass 18 and then 17 to `update`. -/
theorem update_time_from_timer_witness :
    ([⟨noKeys, 300, 300⟩, ⟨rKeys, 20, 18⟩, ⟨shiftKeys, 20, 17⟩, ⟨noKeys, 1, 16⟩] : List Frame) ≠
      [⟨noKeys, 300, 300⟩, ⟨rKeys, 20, 18⟩, ⟨noKeys, 20, 17⟩, ⟨noKeys, 1, 16⟩] ∧
    updatesOf (callsOver initialState
      [⟨noKeys, 300, 300⟩, ⟨rKeys, 20, 18⟩, ⟨noKeys, 20, 17⟩, ⟨noKeys, 1, 16⟩]) = [18, 17] ∧
    updatesOf (callsOver initialState
      [⟨noKeys, 300, 300⟩, ⟨rKeys, 20, 18⟩, ⟨shiftKeys, 20, 17⟩, ⟨noKeys, 1, 16⟩]) =
    updatesOf (callsOver initialState
      [⟨noKeys, 300, 300⟩, ⟨rKeys, 20, 18⟩, ⟨noKeys, 20, 17⟩, ⟨noKeys, 1, 16⟩]) := by
  have s1 : ∀ k : Keys, k.r = false → k.backspace = false →
      (iteration initialState ⟨k, 300, 300⟩).1 = ⟨false, 300, 1 / 10⟩ := by
    intro k hr hb
    norm_num [iteration, initialState, lastReading, desiredFrametime_eq, hr, hb]
  have s2 : (iteration ⟨false, 300, 1 / 10⟩ ⟨rKeys, 20, 18⟩).1 = ⟨true, 18, 0⟩ := by
    norm_num [iteration, rKeys, noKeys, lastReading, desiredFrametime_eq]
  have s3 : ∀ k : Keys, k.r = false → k.backspace = false →
      (iteration ⟨true, 18, 0⟩ ⟨k, 20, 17⟩).1 = ⟨true, 17, 18⟩ := by
    intro k hr hb
    norm_num [iteration, lastReading, desiredFrametime_eq, hr, hb]
  have hist : ∀ k : Keys, k.r = false → k.backspace = false →
      runHistory initialState [⟨noKeys, 300, 300⟩, ⟨rKeys, 20, 18⟩, ⟨k, 20, 17⟩, ⟨noKeys, 1, 16⟩]
        = [false, false, true, true] := by
    intro k hr hb
    simp only [runHistory, s1 noKeys rfl rfl, s2, s3 k hr hb]
    rfl
  have hupd : updatesOf (callsOver initialState
      [⟨noKeys, 300, 300⟩, ⟨rKeys, 20, 18⟩, ⟨noKeys, 20, 17⟩, ⟨noKeys, 1, 16⟩]) = [18, 17] := by
    simp only [callsOver, updatesOf_append, iteration_updates, s1 noKeys rfl rfl, s2,
      s3 noKeys rfl rfl]
    rfl
  refine ⟨?_, hupd, ?_⟩
  · simp [shiftKeys, noKeys]
  · refine update_time_from_timer.2.2.2.2.2.2.1 _ _ ?_ ?_
    · norm_num [timerReadings, desiredFrametime_eq]
    · rw [hist shiftKeys rfl rfl, hist noKeys rfl rfl]

end FluidSim
